import Mathlib

/-!
Verification development for the TPA content-audit scripts
(tpa_crawl.py and tpa_articles.py).

The development shallowly embeds the two scripts:

* tpa_crawl.py: the path-based classifier (categorise), the skip filter
  (should_skip), the depth filter (is_top_level), the crawl frontier loop
  of main together with the link-discovery filter of crawl_url, and the
  status-priority sort of the report rows.

* tpa_articles.py: the JSON-LD extraction (extract_jsonld), the
  per-article processing of scrape_article (title / author / date /
  article-type fallback chains and the date-based status), the retrying
  fetch wrappers (scrape_article retry loop, fetch_xml), the sitemap
  phase, and the run driver (main) with its date sort.

External I/O (HTTP transport, the headless browser, XML and regex
engines) is abstracted: transports become functions from the attempt
number to an outcome, the browser becomes an oracle from a URL to the
cleaned internal links found on its page, and documents are modelled at
the granularity at which the source reads them (the JSON-LD values the
code inspects, the title tag content, and the class markers of the main
content container).  The wall-clock cutoff year is a parameter, matching
the configuration surface of the spec.
-/

/-! ## String utilities

These model the concrete string operations of the Python source:
substring search (the literal patterns given to re.search), the simple
digit regexes, str.lower, str.split, str.replace and str.strip. -/

/-- Character-list prefix test, modelling an anchored literal match. -/
def startsWithChars : List Char → List Char → Bool
  | [], _ => true
  | _ :: _, [] => false
  | p :: ps, c :: cs => p == c && startsWithChars ps cs

/-- Substring search on character lists: models re.search of a literal
pattern (true iff the pattern occurs somewhere in the text). -/
def hasSub (pat : List Char) : List Char → Bool
  | [] => startsWithChars pat []
  | c :: cs => startsWithChars pat (c :: cs) || hasSub pat cs

/-- String-level substring search: true iff pat occurs in s. -/
def containsSub (s pat : String) : Bool := hasSub pat.data s.data

/-- ASCII digit test (the regex digit class; the URLs and dates the
source matches are ASCII). -/
def isDigitCh (c : Char) : Bool := 48 ≤ c.toNat && c.toNat ≤ 57

/-- A 10-character window of shape dddd-dd-dd, the body of the
regex for a full date. -/
def isDateWindow : List Char → Bool
  | a :: b :: c :: d :: e :: f :: g :: h :: i :: j :: _ =>
      isDigitCh a && isDigitCh b && isDigitCh c && isDigitCh d && e == '-' &&
      isDigitCh f && isDigitCh g && h == '-' && isDigitCh i && isDigitCh j
  | _ => false

/-- Models re.search of a yyyy-mm-dd shaped pattern anywhere in the string. -/
def hasDateSeq : List Char → Bool
  | [] => false
  | c :: cs => isDateWindow (c :: cs) || hasDateSeq cs

/-- Models the year-month-anchored-at-end regex: the string ends
in four digits, a hyphen and two digits. -/
def endsWithYearMonth (s : String) : Bool :=
  match s.data.reverse with
  | m2 :: m1 :: h :: y4 :: y3 :: y2 :: y1 :: _ =>
      isDigitCh m2 && isDigitCh m1 && h == '-' && isDigitCh y4 && isDigitCh y3 &&
      isDigitCh y2 && isDigitCh y1
  | _ => false

/-- ASCII lower-casing, modelling str.lower on the URLs the crawler
produces (which are ASCII). -/
def lowerStr (s : String) : String := String.mk (s.data.map Char.toLower)

/-- Lexicographic strict comparison of character lists by code point,
exactly as Python compares strings. -/
def pyStrLtChars : List Char → List Char → Bool
  | [], [] => false
  | [], _ :: _ => true
  | _ :: _, [] => false
  | a :: as, b :: bs =>
      if a.toNat < b.toNat then true
      else if b.toNat < a.toNat then false
      else pyStrLtChars as bs

/-- Python string strict comparison. -/
def pyStrLt (s t : String) : Bool := pyStrLtChars s.data t.data

/-- Python string non-strict comparison (the order list.sort uses on the
string keys). -/
def pyStrLe (s t : String) : Bool := !(pyStrLt t s)

/-- Numeric value of a digit character. -/
def digitVal (c : Char) : Nat := c.toNat - 48

/-- Numeric value of a four-digit string (int(...) on a regex group). -/
def fourDigitNat (s : String) : Nat :=
  match s.data with
  | [a, b, c, d] => digitVal a * 1000 + digitVal b * 100 + digitVal c * 10 + digitVal d
  | _ => 0

/-- Models re.search of a four-consecutive-digit group: the first window
of four digits, returned as the matched text (leading zeros kept, as the
source interpolates the matched group into the reason string). -/
def findYearStr : List Char → Option String
  | a :: b :: c :: d :: rest =>
      if isDigitCh a && isDigitCh b && isDigitCh c && isDigitCh d then
        some (String.mk [a, b, c, d])
      else findYearStr (b :: c :: d :: rest)
  | _ => none


/-- Split a character list on a separator character (str.split with a
one-character separator): empty segments are kept, as in Python. -/
def splitOnChar (sep : Char) : List Char → List (List Char)
  | [] => [[]]
  | c :: cs =>
    match splitOnChar sep cs with
    | [] => [[]]
    | seg :: segs => if c == sep then [] :: seg :: segs else (c :: seg) :: segs

/-- Join character-list segments with a separator (str.join). -/
def joinWith (sep : List Char) : List (List Char) → List Char
  | [] => []
  | [x] => x
  | x :: y :: rest => x ++ sep ++ joinWith sep (y :: rest)

/-- Left-to-right non-overlapping removal of a pattern, fuelled by the
text length (each step consumes at least one character, so the fuel
suffices): str.replace(pat, the empty string). -/
def removeAllAux (pat : List Char) : Nat → List Char → List Char
  | 0, s => s
  | _ + 1, [] => []
  | fuel + 1, c :: cs =>
      if startsWithChars pat (c :: cs) then
        removeAllAux pat fuel ((c :: cs).drop pat.length)
      else c :: removeAllAux pat fuel cs

/-- Whitespace trim at both ends (str.strip). -/
def trimChars (s : List Char) : List Char :=
  ((s.dropWhile Char.isWhitespace).reverse.dropWhile Char.isWhitespace).reverse

/-- Strip trailing slashes (rstrip of the sitemap loc texts). -/
def rstripSlash (s : String) : String :=
  String.mk ((s.data.reverse.dropWhile (fun c => c == '/')).reverse)

/-- First-occurrence-order deduplication, modelling accumulation into a
set. -/
def dedupAux (seen : List String) : List String → List String
  | [] => []
  | x :: xs => if seen.contains x then dedupAux seen xs else x :: dedupAux (x :: seen) xs

/-- Deduplicated list, keeping first occurrences. -/
def dedupFirst (l : List String) : List String := dedupAux [] l

/-! ## tpa_crawl.py: URL helpers and the path classifier -/

/-- BASE_URL of both scripts. -/
def BASE_URL : String := "https://thepaymentsassociation.org"

/-- Drop the host portion: everything up to the first slash. -/
def afterHost : List Char → List Char
  | [] => []
  | c :: cs => if c = '/' then c :: cs else afterHost cs

/-- Path component of a URL, modelling urlparse(...).path for the
scheme-host-path URLs the crawler produces (no query and no fragment:
query-carrying URLs are excluded by should_skip before use, and the
crawler stores cleaned scheme+host+path strings). A string without a
scheme is all path, as in urlparse. -/
def urlPath (url : String) : String :=
  let cs := url.data
  if startsWithChars ("https://".data) cs then String.mk (afterHost (cs.drop 8))
  else if startsWithChars ("http://".data) cs then String.mk (afterHost (cs.drop 7))
  else url

/-- SKIP_PATTERNS applied by should_skip, in source order. -/
def should_skip (url : String) : Bool :=
  containsSub url "/events/tag/" ||
  containsSub url "/events/category/" ||
  containsSub url "/day/" ||
  endsWithYearMonth url ||
  hasDateSeq url.data ||
  url.data.contains '?' ||
  containsSub url "/page/" ||
  containsSub url "/feed/" ||
  containsSub url "/author/"

/-- is_top_level: at most two nonempty path segments. -/
def is_top_level (url : String) : Bool :=
  ((splitOnChar '/' (urlPath url).data).filter (fun p => p ≠ [])).length ≤ 2

/-- The duplicate_pairs table of categorise. -/
def duplicate_pairs : List (String × String) :=
  [("/members/become-a-member", "/become-a-member"),
   ("/members/purchase-membership", "/purchase-membership"),
   ("/members/terms-and-conditions", "/terms-and-conditions")]

/-- categorise of tpa_crawl.py.  The wall-clock CUTOFF_YEAR global is the
cutoffYear parameter.  The duplicate-pair loop is unrolled over the three
pairs of duplicate_pairs, in their list order. -/
def categorise (cutoffYear : Nat) (url : String) : String × String :=
  let path := lowerStr (urlPath url)
  if path = "/members/become-a-member" then
    ("DUPLICATE", "Possible duplicate of " ++ BASE_URL ++ "/become-a-member")
  else if path = "/members/purchase-membership" then
    ("DUPLICATE", "Possible duplicate of " ++ BASE_URL ++ "/purchase-membership")
  else if path = "/members/terms-and-conditions" then
    ("DUPLICATE", "Possible duplicate of " ++ BASE_URL ++ "/terms-and-conditions")
  else if containsSub path "/gallery/" then
    match findYearStr path.data with
    | some ys =>
        if fourDigitNat ys < cutoffYear then
          ("DELETE_CANDIDATE", "Old gallery page from " ++ ys)
        else ("KEEP", "Recent gallery page")
    | none => ("KEEP", "Recent gallery page")
  else if containsSub path "/event/" then
    match findYearStr path.data with
    | some ys =>
        if fourDigitNat ys < cutoffYear then
          ("DELETE_CANDIDATE", "Past event from " ++ ys)
        else ("REVIEW", "Past or upcoming event — check if still relevant")
    | none => ("REVIEW", "Past or upcoming event — check if still relevant")
  else if containsSub path "/directory/" then
    ("REVIEW", "Check if member is still active")
  else if containsSub path "/filter_categories/" || containsSub path "/directory_cat/" then
    ("REVIEW", "Auto-generated category page — check if needed")
  else if containsSub path "/webinar/" then
    match findYearStr path.data with
    | some ys =>
        if fourDigitNat ys < cutoffYear then
          ("DELETE_CANDIDATE", "Old webinar from " ++ ys)
        else ("KEEP", "Webinar page")
    | none => ("KEEP", "Webinar page")
  else if containsSub path "/article/" || containsSub path "/whitepaper/" then
    ("KEEP", "Content page")
  else ("KEEP", "Core site page")

/-! ## tpa_crawl.py: the frontier loop of main and crawl_url -/

/-- Link-discovery filter of crawl_url: for each candidate link (already
normalized to a cleaned internal scheme+host+path string by the
browser-facing loop, which checks the host and strips the trailing
slash), keep it when it passes should_skip and is_top_level and is not in
the visited set.  Note the kept list is not deduplicated against itself:
only the visited set is consulted, as in the source. -/
def discoverLinks (visited : List String) (links : List String) : List String :=
  links.foldl
    (fun acc link =>
      if !should_skip link && is_top_level link then
        if !visited.contains link then acc ++ [link] else acc
      else acc)
    []

/-- State of the crawl loop of main: the visited set (modelled as the
list of insertions, each made only when the URL is absent), the to_visit
work list in Python list order (pop takes the last element), and a ghost
trace of the URLs handed to crawl_url, in batch order. -/
structure CrawlState where
  visited : List String
  toVisit : List String
  fetched : List String

/-- The inner batch-building loop of main: while to_visit is nonempty and
the batch holds fewer than 10 URLs, pop the last queued URL; if it is
unvisited and not skipped, add it to the visited set and the batch. -/
def buildBatch (visited batch toVisit : List String) :
    List String × List String × List String :=
  if htv : toVisit = [] then (visited, batch, toVisit)
  else if batch.length ≥ 10 then (visited, batch, toVisit)
  else
    let url := toVisit.getLast htv
    let rest := toVisit.dropLast
    if url ∈ visited ∨ should_skip url then buildBatch visited batch rest
    else buildBatch (url :: visited) (batch ++ [url]) rest
termination_by toVisit.length
decreasing_by
  all_goals
    simp only [List.length_dropLast]
    have := List.length_pos.mpr htv
    omega

/-- The outer loop of main, fuelled by the number of iterations (the
source loop ends when to_visit empties or a batch comes out empty; the
fuel lets us reason about every finite prefix of the run).  Each batch is
fetched concurrently; crawl_url only reads the visited set, which main
alone mutates between batches, so discovery filters against the
batch-closing snapshot of visited.  The new links of all batch members
extend to_visit in result order. -/
def crawlRun (linksOf : String → List String) : Nat → CrawlState → CrawlState
  | 0, s => s
  | fuel + 1, s =>
    if s.toVisit = [] then s
    else
      let step := buildBatch s.visited [] s.toVisit
      let v' := step.1
      let batch := step.2.1
      let tv' := step.2.2
      if batch = [] then ⟨v', tv', s.fetched⟩
      else
        let newLinks := (batch.map (fun u => discoverLinks v' (linksOf u))).flatten
        crawlRun linksOf fuel ⟨v', tv' ++ newLinks, s.fetched ++ batch⟩

/-- Initial crawl state of main: empty visited set, to_visit = [BASE_URL]. -/
def crawlInit : CrawlState := ⟨[], [BASE_URL], []⟩

/-! ## tpa_crawl.py: report rows and the status sort of main -/

/-- A row of the path-audit report. -/
structure PathRow where
  url : String
  status : String
  reason : String
deriving Repr, DecidableEq

/-- The status_order table of main, with the .get default 99. -/
def statusRank (s : String) : Nat :=
  if s = "DELETE_CANDIDATE" then 0
  else if s = "DUPLICATE" then 1
  else if s = "REVIEW" then 2
  else if s = "KEEP" then 3
  else 99

/-- The stable sort of rows by status priority (Python list.sort with a
key is a stable sort by key; insertion sort on the key order is stable,
see the filter lemmas below). -/
def pathSort (rows : List PathRow) : List PathRow :=
  List.insertionSort (fun a b => statusRank a.status ≤ statusRank b.status) rows

/-! ## tpa_articles.py: the document model

scrape_article reads a fetched page through three signals: the JSON-LD
script blocks, the title tag content, and the class attribute of the
elementor-location-single container (from which two slug markers are
read).  The regex layer that locates these signals in raw HTML is the
out-of-scope markup parsing of the spec; the model starts from the
located signals.  JSON-LD graph members are modelled at the granularity
the source reads them: the keys datePublished, headline, author, @type
and itemListElement, with string-typed values where the schema the code
consumes guarantees strings.  A datePublished key present with a null or
empty value is modelled as the empty string (both are falsy at the one
place the value is used). -/

/-- The author field shapes handled by scrape_article: absent (the .get
default of an empty dict), a dict with an optional name, or a list whose
first element is taken (a non-dict first element, like a nested list,
falls to the Unknown branch, as does an empty list). -/
inductive AuthorField where
  | absent
  | adict (name : Option String)
  | alist (items : List AuthorField)
deriving Repr

/-- One itemListElement entry of a BreadcrumbList: an object with an
optional name. -/
structure BreadcrumbItem where
  name : Option String
deriving Repr, DecidableEq

/-- One member of a JSON-LD graph, at the keys the source reads.
itemListElement is [] when the key is absent (the .get default). -/
structure GraphItem where
  datePublished : Option String
  headline : Option String
  author : AuthorField
  attype : Option String
  itemListElement : List BreadcrumbItem
deriving Repr

/-- One script block of type application/ld+json: json.loads fails
(malformed), or the value is a dict carrying an @graph list, or a
top-level list, or any other shape (a dict without @graph, or a scalar),
which the loop skips. -/
inductive LdBlock where
  | malformed
  | graphDict (graph : List GraphItem)
  | listShaped (graph : List GraphItem)
  | otherShape
deriving Repr

/-- The graph a block contributes, if any. -/
def graphOf : LdBlock → Option (List GraphItem)
  | .graphDict g => some g
  | .listShaped g => some g
  | _ => none

/-- Breadcrumb category of a graph: the name of the second
itemListElement entry of the first BreadcrumbList member, when that list
has at least two entries. -/
def bcCategory (g : List GraphItem) : Option String :=
  match g.find? (fun d => d.attype == some "BreadcrumbList") with
  | some bc =>
      if bc.itemListElement.length ≥ 2 then
        ((bc.itemListElement.get? 1).bind (fun it => it.name))
      else none
  | none => none

/-- extract_jsonld of tpa_articles.py: scan the blocks in order; from the
first parseable graph-or-list shaped block containing a member with a
datePublished key, return that member and the breadcrumb category of the
same block; a block whose graph has no such member is skipped, and its
breadcrumb (computed and discarded in the source) does not escape.
Returns (none, none) when no block yields an article (the empty dict of
the source). -/
def extract_jsonld : List LdBlock → Option GraphItem × Option String
  | [] => (none, none)
  | b :: rest =>
    match graphOf b with
    | none => extract_jsonld rest
    | some g =>
      match g.find? (fun d => d.datePublished.isSome) with
      | some art => (some art, bcCategory g)
      | none => extract_jsonld rest

/-- The author resolution of scrape_article. -/
def authorOf : Option GraphItem → String
  | none => "Unknown"
  | some art =>
    match art.author with
    | .absent => "Unknown"
    | .adict name => name.getD "Unknown"
    | .alist items =>
      match items.head? with
      | some (.adict name) => name.getD "Unknown"
      | _ => "Unknown"

/-! ## tpa_articles.py: title, date and article type -/

/-- The class markers read off the main content container: the
filter_types-(slug) group and the category-(slug) group, when the
respective regexes match inside the class attribute. -/
structure ContainerSignals where
  filterTypeSlug : Option String
  categorySlug : Option String
deriving Repr, DecidableEq

/-- A fetched article page, as read by scrape_article. -/
structure Doc where
  blocks : List LdBlock
  titleTag : Option String
  container : Option ContainerSignals
deriving Repr

/-- Remove every occurrence of pat (str.replace with an empty
replacement equals split-and-rejoin). -/
def removeAllSub (pat s : String) : String :=
  String.mk (removeAllAux pat.data s.data.length s.data)

/-- Title resolution of scrape_article: the JSON-LD headline when truthy,
else the title tag content, else the Unknown sentinel; the site suffix is
removed and the result trimmed. -/
def titleOf (data : Option GraphItem) (titleTag : Option String) : String :=
  let raw :=
    match data.bind (fun a => a.headline) with
    | some h => if h = "" then titleTag.getD "Unknown" else h
    | none => titleTag.getD "Unknown"
  String.mk (trimChars (removeAllSub " | The Payments Association" raw).data)

/-- ARTICLE_TYPE_OVERRIDES of tpa_articles.py, as the lookup the .get
call performs. -/
def articleTypeOverride (raw : String) : Option String :=
  if raw = "thought-leadership-quarterly" then some "Thought Leadership"
  else if raw = "thought-leadership" then some "Thought Leadership"
  else if raw = "payments-intelligence" then some "Payments Intelligence"
  else none

/-- str.capitalize: first character upper-cased, the rest lower-cased. -/
def capitalizeWord (w : String) : String :=
  match w.data with
  | [] => ""
  | c :: cs => String.mk (c.toUpper :: cs.map Char.toLower)

/-- Hyphen-split humanization of a slug. -/
def humanize (raw : String) : String :=
  String.mk (joinWith [' '] ((splitOnChar '-' raw.data).map (fun w => (capitalizeWord (String.mk w)).data)))

/-- The three-strategy article-type fallback chain of scrape_article,
exactly as the source sequences it: strategy 1 reads the filter_types
slug of the container (override table first, else humanized); strategy 2
runs only when the type is still the Unknown sentinel and the breadcrumb
category is truthy; strategy 3 runs only when the type is still Unknown
and reads the category slug of the container. -/
def articleTypeOf (container : Option ContainerSignals) (breadcrumbCategory : Option String) :
    String :=
  let t1 :=
    match container with
    | some c =>
      match c.filterTypeSlug with
      | some raw => (articleTypeOverride raw).getD (humanize raw)
      | none => "Unknown"
    | none => "Unknown"
  let t2 :=
    if t1 = "Unknown" then
      match breadcrumbCategory with
      | some bc => if bc = "" then t1 else bc
      | none => t1
    else t1
  if t2 = "Unknown" then
    match container with
    | some c =>
      match c.categorySlug with
      | some cat => humanize cat
      | none => t2
    | none => t2
  else t2

/-- A publication date as the source consumes it: year, month, day. -/
structure PubDate where
  year : Nat
  month : Nat
  day : Nat
deriving Repr, DecidableEq

/-- Models datetime.fromisoformat on the date portion: the string must
open with a dddd-dd-dd window with the month and day in range (the exact
month-length and time-portion validation of fromisoformat is elided; the
theorems never depend on the precise parse domain, only on parse success
or failure gating the item). -/
def parseIsoDate (s : String) : Option PubDate :=
  match s.data with
  | y1 :: y2 :: y3 :: y4 :: h1 :: m1 :: m2 :: h2 :: d1 :: d2 :: _ =>
      if isDigitCh y1 && isDigitCh y2 && isDigitCh y3 && isDigitCh y4 && h1 == '-' &&
         isDigitCh m1 && isDigitCh m2 && h2 == '-' && isDigitCh d1 && isDigitCh d2 then
        let y := digitVal y1 * 1000 + digitVal y2 * 100 + digitVal y3 * 10 + digitVal y4
        let m := digitVal m1 * 10 + digitVal m2
        let d := digitVal d1 * 10 + digitVal d2
        if 1 ≤ m && m ≤ 12 && 1 ≤ d && d ≤ 31 then some ⟨y, m, d⟩ else none
      else none
  | _ => none

/-- strftime %b month abbreviations (C locale). -/
def monthAbbrev (m : Nat) : String :=
  if m = 1 then "Jan" else if m = 2 then "Feb" else if m = 3 then "Mar"
  else if m = 4 then "Apr" else if m = 5 then "May" else if m = 6 then "Jun"
  else if m = 7 then "Jul" else if m = 8 then "Aug" else if m = 9 then "Sep"
  else if m = 10 then "Oct" else if m = 11 then "Nov" else "Dec"

/-- Two-digit zero padding (strftime %m and %d). -/
def pad2 (n : Nat) : String := if n < 10 then "0" ++ Nat.repr n else Nat.repr n

/-- strftime of the output date column: %Y-%m-%d (%Y renders the year
unpadded on the platform C library; every real sitemap year has four
digits, where the two agree). -/
def fmtYMD (d : PubDate) : String :=
  Nat.repr d.year ++ "-" ++ pad2 d.month ++ "-" ++ pad2 d.day

/-- The date-based status decision of scrape_article (lines 150-156):
DELETE_CANDIDATE below the cutoff year with a staleness-flagged reason,
KEEP otherwise, REVIEW when no date was determinable.  The reason of a
dated row interpolates strftime %b %Y. -/
def dateStatus (pubDate : Option PubDate) (cutoffYear : Nat) : String × String :=
  match pubDate with
  | some d =>
    if d.year < cutoffYear then
      ("DELETE_CANDIDATE",
       "Published " ++ monthAbbrev d.month ++ " " ++ Nat.repr d.year ++ "  — over 3 years old")
    else ("KEEP", "Published " ++ monthAbbrev d.month ++ " " ++ Nat.repr d.year)
  | none => ("REVIEW", "Could not determine publish date")

/-- A row of the date-audit report. -/
structure AuditRow where
  url : String
  title : String
  author : String
  published_date : String
  article_type : String
  status : String
  reason : String
deriving Repr, DecidableEq

/-- The body of scrape_article after a 200 response: extraction,
classification and row construction.  Returns none exactly when
fromisoformat raises on a truthy but malformed datePublished (the
generic exception handler of the source then returns None for the
item); every other path yields a row. -/
def processDoc (cutoffYear : Nat) (url : String) (doc : Doc) : Option AuditRow :=
  let ex := extract_jsonld doc.blocks
  let data := ex.1
  let breadcrumbCategory := ex.2
  let title := titleOf data doc.titleTag
  let dateStr := (data.bind (fun a => a.datePublished)).getD ""
  let pubOpt : Option (Option PubDate) :=
    if dateStr = "" then some none
    else
      match parseIsoDate dateStr with
      | some d => some (some d)
      | none => none
  match pubOpt with
  | none => none
  | some pubDate =>
    let sr := dateStatus pubDate cutoffYear
    some ⟨url, title, authorOf data, (pubDate.map fmtYMD).getD "Unknown",
          articleTypeOf doc.container breadcrumbCategory, sr.1, sr.2⟩

/-! ## tpa_articles.py: the retry loops -/

/-- Outcome of one fetch attempt inside scrape_article: a transient error
(asyncio.TimeoutError or ServerDisconnectedError, the retried class), a
response with a status and body, or any other exception (the
not-retried class). -/
inductive FetchOutcome where
  | transient
  | ok (status : Nat) (doc : Doc)
  | otherError
deriving Repr

/-- The retry loop of scrape_article over the remaining attempt indices
(for attempt in range(retries)).  A transient error retries while later
attempts remain, else gives up with None; a non-200 response and any
other error return None at once; a 200 response is processed.  The
second component counts the attempts made (the last attempt index plus
one). -/
def scrapeLoop (cutoffYear : Nat) (url : String) (transport : Nat → FetchOutcome) :
    List Nat → Option AuditRow × Nat
  | [] => (none, 0)
  | attempt :: rest =>
    match transport attempt with
    | .ok status doc =>
        if status = 200 then (processDoc cutoffYear url doc, attempt + 1)
        else (none, attempt + 1)
    | .otherError => (none, attempt + 1)
    | .transient =>
        if rest.isEmpty then (none, attempt + 1)
        else scrapeLoop cutoffYear url transport rest

/-- scrape_article of tpa_articles.py (the callers pass retries = 3). -/
def scrape_article (cutoffYear : Nat) (url : String) (transport : Nat → FetchOutcome)
    (retries : Nat) : Option AuditRow × Nat :=
  scrapeLoop cutoffYear url transport (List.range retries)

/-- The fetch_xml retry loop over the remaining attempt indices: on an
error, when later attempts remain, sleep backoff * (attempt + 1) seconds
and retry, else re-raise.  Returns the outcome and the list of backoff
waits taken.  An empty attempt list (retries = 0, never used by the
source, whose callers use the default 3) is modelled as an immediate
empty error. -/
def fetchXmlLoop {α : Type} (transport : Nat → Except String α) (backoff : Nat) :
    List Nat → Except String α × List Nat
  | [] => (.error "", [])
  | attempt :: rest =>
    match transport attempt with
    | .ok v => (.ok v, [])
    | .error e =>
        if rest.isEmpty then (.error e, [])
        else
          let r := fetchXmlLoop transport backoff rest
          (r.1, backoff * (attempt + 1) :: r.2)

/-- fetch_xml of tpa_articles.py: the one serial fetch path, retried with
linear backoff, re-raising after the last attempt.  The XML parse is
abstracted into the transport, which returns the loc texts the caller
reads off the parsed tree. -/
def fetch_xml {α : Type} (transport : Nat → Except String α) (retries backoff : Nat) :
    Except String α × List Nat :=
  fetchXmlLoop transport backoff (List.range retries)

/-! ## tpa_articles.py: the sitemap phase and the run driver -/

/-- The per-sub-sitemap loop of get_article_urls_from_sitemap: fetch each
post sitemap (an uncaught error aborts), keep loc entries containing
/article/ after stripping the trailing slash. -/
def subSitemapLoop (subT : String → Nat → Except String (List String)) :
    List String → Except String (List String)
  | [] => .ok []
  | sm :: rest =>
    match (fetch_xml (subT sm) 3 5).1 with
    | .error e => .error e
    | .ok locs =>
      match subSitemapLoop subT rest with
      | .error e => .error e
      | .ok urls =>
        .ok (((locs.map rstripSlash).filter
               (fun u => containsSub u "/article/")) ++ urls)

/-- get_article_urls_from_sitemap: fetch the sitemap index, keep the
post-sitemap entries, fetch each and collect the deduplicated article
URLs (the source accumulates into a set; list(set(...)) iteration order
is arbitrary, modelled as first-occurrence order — the run output is
sorted afterwards, so no theorem depends on this order). -/
def get_article_urls_from_sitemap (indexT : Nat → Except String (List String))
    (subT : String → Nat → Except String (List String)) : Except String (List String) :=
  match (fetch_xml indexT 3 5).1 with
  | .error e => .error e
  | .ok locs =>
    match subSitemapLoop subT (locs.filter (fun l => containsSub l "post-sitemap")) with
    | .error e => .error e
    | .ok urls => .ok (dedupFirst urls)

/-- The aggregation of main: keep the truthy results (a returned row dict
is nonempty, hence truthy; None is dropped by the comprehension). -/
def collectResults (raw : List (Option AuditRow)) : List AuditRow :=
  raw.filterMap id

/-- The date sort of main: a stable sort keyed on the published_date
string, compared lexicographically by code point as Python compares
strings. -/
def dateSort (rows : List AuditRow) : List AuditRow :=
  List.insertionSort (fun a b => pyStrLe a.published_date b.published_date = true) rows

deriving instance DecidableEq for Except

/-- The run driver of tpa_articles.py: the sitemap phase (whose error,
the only uncaught one, aborts the run), then one scrape per article URL
under the default 3 retries, aggregation of the truthy results, and the
date sort. -/
def runAudit (cutoffYear : Nat) (indexT : Nat → Except String (List String))
    (subT : String → Nat → Except String (List String))
    (perItem : String → Nat → FetchOutcome) : Except String (List AuditRow) :=
  match get_article_urls_from_sitemap indexT subT with
  | .error e => .error e
  | .ok urls =>
    .ok (dateSort (collectResults
          (urls.map (fun u => (scrape_article cutoffYear u (perItem u) 3).1))))

/-! ## Spec-side definitions

Rule-combinator renderings of the classifier, written from the words of
the spec (an ordered set of path rules, first match wins, unmatched paths
KEEP as core site pages), to be compared with categorise.  Two orders are
stated: the order the claim lists (duplicates; gallery or webinar;
event; directory or filter categories; article or whitepaper) and the
order the source actually checks (webinar only after the directory and
filter rules). -/

/-- First-match-wins evaluation of an ordered rule list over a lowercased
path, with the unmatched default KEEP / core site page. -/
def applyRules : List (String → Option (String × String)) → String → String × String
  | [], _ => ("KEEP", "Core site page")
  | r :: rs, path =>
    match r path with
    | some v => v
    | none => applyRules rs path

/-- The exact-match duplicate-pair rule. -/
def ruleDup (path : String) : Option (String × String) :=
  (duplicate_pairs.find? (fun pr => path == pr.1)).map
    (fun pr => ("DUPLICATE", "Possible duplicate of " ++ BASE_URL ++ pr.2))

/-- The gallery rule. -/
def ruleGallery (cutoffYear : Nat) (path : String) : Option (String × String) :=
  if containsSub path "/gallery/" then
    some (match findYearStr path.data with
      | some ys =>
          if fourDigitNat ys < cutoffYear then
            ("DELETE_CANDIDATE", "Old gallery page from " ++ ys)
          else ("KEEP", "Recent gallery page")
      | none => ("KEEP", "Recent gallery page"))
  else none

/-- The event rule. -/
def ruleEvent (cutoffYear : Nat) (path : String) : Option (String × String) :=
  if containsSub path "/event/" then
    some (match findYearStr path.data with
      | some ys =>
          if fourDigitNat ys < cutoffYear then
            ("DELETE_CANDIDATE", "Past event from " ++ ys)
          else ("REVIEW", "Past or upcoming event — check if still relevant")
      | none => ("REVIEW", "Past or upcoming event — check if still relevant"))
  else none

/-- The directory rule. -/
def ruleDirectory (path : String) : Option (String × String) :=
  if containsSub path "/directory/" then some ("REVIEW", "Check if member is still active")
  else none

/-- The auto-generated filter and directory category rule. -/
def ruleFilterCat (path : String) : Option (String × String) :=
  if containsSub path "/filter_categories/" || containsSub path "/directory_cat/" then
    some ("REVIEW", "Auto-generated category page — check if needed")
  else none

/-- The webinar rule. -/
def ruleWebinar (cutoffYear : Nat) (path : String) : Option (String × String) :=
  if containsSub path "/webinar/" then
    some (match findYearStr path.data with
      | some ys =>
          if fourDigitNat ys < cutoffYear then
            ("DELETE_CANDIDATE", "Old webinar from " ++ ys)
          else ("KEEP", "Webinar page")
      | none => ("KEEP", "Webinar page"))
  else none

/-- The article and whitepaper content rule. -/
def ruleContent (path : String) : Option (String × String) :=
  if containsSub path "/article/" || containsSub path "/whitepaper/" then
    some ("KEEP", "Content page")
  else none

/-- The classifier in the priority order the claim lists: duplicates
first, then gallery or webinar, then event, then directory and filter
categories, then article or whitepaper. -/
def categoriseClaimOrder (cutoffYear : Nat) (url : String) : String × String :=
  applyRules
    [ruleDup, ruleGallery cutoffYear, ruleWebinar cutoffYear, ruleEvent cutoffYear,
     ruleDirectory, ruleFilterCat, ruleContent]
    (lowerStr (urlPath url))

/-- The three article-type strategies as value-or-nothing functions, in
the vocabulary of the spec: each is independent and optional. -/
def strat1 (container : Option ContainerSignals) : Option String :=
  (container.bind (fun c => c.filterTypeSlug)).map
    (fun raw => (articleTypeOverride raw).getD (humanize raw))

/-- Strategy 2: the breadcrumb category, when truthy. -/
def strat2 (breadcrumbCategory : Option String) : Option String :=
  match breadcrumbCategory with
  | some c => if c = "" then none else some c
  | none => none

/-- Strategy 3: the category slug of the container, humanized. -/
def strat3 (container : Option ContainerSignals) : Option String :=
  (container.bind (fun c => c.categorySlug)).map humanize

/-- The sentinel-threaded fallback chain: starting from the Unknown
sentinel, each strategy result is taken only while the accumulated type
is still the sentinel.  This is the form in which the source sequences
its three strategies. -/
def sentinelChain (strategies : List (Option String)) : String :=
  strategies.foldl (fun acc o => if acc = "Unknown" then o.getD acc else acc) "Unknown"

/-- A string of exactly the shape dddd-dd-dd (a YYYY-MM-DD date string). -/
def isYMDShape (s : String) : Bool :=
  match s.data with
  | [y1, y2, y3, y4, h1, m1, m2, h2, d1, d2] =>
      isDigitCh y1 && isDigitCh y2 && isDigitCh y3 && isDigitCh y4 && h1 == '-' &&
      isDigitCh m1 && isDigitCh m2 && h2 == '-' && isDigitCh d1 && isDigitCh d2
  | _ => false

/-! ## Lemmas: substring search -/

/-- A pattern is found at the start of text it prefixes. -/
theorem startsWithChars_self_append (p t : List Char) :
    startsWithChars p (p ++ t) = true := by
  induction p with
  | nil => rfl
  | cons c cs ih => simp [startsWithChars, ih]

/-- Substring search finds a pattern embedded anywhere. -/
theorem hasSub_append_middle (pat : List Char) :
    ∀ pre suf, hasSub pat (pre ++ pat ++ suf) = true := by
  intro pre
  induction pre with
  | nil =>
    intro suf
    cases pat with
    | nil => cases suf <;> simp [hasSub, startsWithChars]
    | cons c cs =>
      simp only [List.nil_append, List.cons_append, hasSub]
      have := startsWithChars_self_append (c :: cs) suf
      simp only [List.cons_append] at this
      simp [this]
  | cons c cs ih =>
    intro suf
    have h := ih suf
    cases hx : cs ++ pat ++ suf with
    | nil =>
      cases pat with
      | nil => simp [hasSub, startsWithChars]
      | cons p ps =>
        exfalso
        have : (cs ++ p :: ps ++ suf).length = 0 := by rw [hx]; rfl
        simp at this
    | cons d ds =>
      simp only [List.cons_append, List.append_assoc] at hx ⊢
      simp only [List.append_assoc] at h
      rw [hx] at h
      rw [hx]
      show (startsWithChars pat (c :: d :: ds) || hasSub pat (d :: ds)) = true
      rw [h, Bool.or_true]

/-- String-level form: a string contains any infix it is built around. -/
theorem containsSub_append_middle (pre mid suf : String) :
    containsSub (pre ++ mid ++ suf) mid = true := by
  simp only [containsSub, String.data_append]
  exact hasSub_append_middle mid.data pre.data suf.data

/-! ## Lemmas: the Python string order -/

/-- Strict code-point comparison is asymmetric. -/
theorem pyStrLtChars_asymm :
    ∀ as bs, pyStrLtChars as bs = true → pyStrLtChars bs as = false := by
  intro as
  induction as with
  | nil => intro bs h; cases bs <;> simp_all [pyStrLtChars]
  | cons a as ih =>
    intro bs h
    cases bs with
    | nil => simp [pyStrLtChars] at h
    | cons b bs =>
      simp only [pyStrLtChars] at h ⊢
      by_cases h1 : a.toNat < b.toNat
      · have h2 : ¬ b.toNat < a.toNat := by omega
        simp [h1, h2]
      · by_cases h2 : b.toNat < a.toNat
        · simp [h1, h2] at h
        · simp only [if_neg h1, if_neg h2] at h ⊢
          exact ih bs h

/-- Strict code-point comparison against a common upper list: what is
below as is below bs or bs is below as. -/
theorem pyStrLtChars_or :
    ∀ cs as bs, pyStrLtChars cs as = true →
      pyStrLtChars cs bs = true ∨ pyStrLtChars bs as = true := by
  intro cs
  induction cs with
  | nil =>
    intro as bs h
    cases as with
    | nil => simp [pyStrLtChars] at h
    | cons a as =>
      cases bs with
      | nil => right; simp [pyStrLtChars]
      | cons b bs => left; simp [pyStrLtChars]
  | cons c cs ih =>
    intro as bs h
    cases as with
    | nil => simp [pyStrLtChars] at h
    | cons a as =>
      cases bs with
      | nil => right; simp [pyStrLtChars]
      | cons b bs =>
        simp only [pyStrLtChars] at h ⊢
        by_cases hca : c.toNat < a.toNat
        · by_cases hcb : c.toNat < b.toNat
          · left; simp [hcb]
          · right
            have hba : b.toNat < a.toNat := by omega
            simp [hba]
        · by_cases hac : a.toNat < c.toNat
          · simp [hca, hac] at h
          · simp only [if_neg hca, if_neg hac] at h
            by_cases hcb : c.toNat < b.toNat
            · left; simp [hcb]
            · by_cases hbc : b.toNat < c.toNat
              · right
                have hba : b.toNat < a.toNat := by omega
                simp [hba]
              · rcases ih as bs h with h' | h'
                · left; simp [hcb, hbc, h']
                · right
                  have h1 : ¬ b.toNat < a.toNat := by omega
                  have h2 : ¬ a.toNat < b.toNat := by omega
                  simp [h1, h2, h']

/-- Totality of the date-key order used by the date sort. -/
instance : IsTotal AuditRow (fun a b => pyStrLe a.published_date b.published_date = true) := by
  constructor
  intro a b
  simp only [pyStrLe, pyStrLt, Bool.not_eq_true']
  by_cases h : pyStrLtChars b.published_date.data a.published_date.data = true
  · right
    exact pyStrLtChars_asymm _ _ h
  · left
    exact Bool.not_eq_true _ ▸ (Bool.of_not_eq_true h)

/-- Transitivity of the date-key order used by the date sort. -/
instance : IsTrans AuditRow (fun a b => pyStrLe a.published_date b.published_date = true) := by
  constructor
  intro a b c hab hbc
  simp only [pyStrLe, pyStrLt, Bool.not_eq_true'] at hab hbc ⊢
  by_cases h : pyStrLtChars c.published_date.data a.published_date.data = true
  · rcases pyStrLtChars_or _ _ b.published_date.data h with h' | h'
    · rw [h'] at hbc; cases hbc
    · rw [h'] at hab; cases hab
  · exact Bool.of_not_eq_true h

/-- Totality of the status-rank order used by the path sort. -/
instance : IsTotal PathRow (fun a b => statusRank a.status ≤ statusRank b.status) :=
  ⟨fun x y => Nat.le_total (statusRank x.status) (statusRank y.status)⟩

/-- Transitivity of the status-rank order used by the path sort. -/
instance : IsTrans PathRow (fun a b => statusRank a.status ≤ statusRank b.status) :=
  ⟨fun _ _ _ => Nat.le_trans⟩

/-! ## Lemmas: stability of the keyed insertion sort -/

/-- Inserting an element whose filter class sits at one key value
commutes with filtering: the inserted element lands in front of its
class, and elements outside the class are unaffected. -/
theorem filter_orderedInsert {α : Type} (r : α → α → Prop) [DecidableRel r] (p : α → Bool)
    (hp : ∀ a b, p a = true → p b = true → r a b) (a : α) :
    ∀ l, (List.orderedInsert r a l).filter p =
      if p a then a :: l.filter p else l.filter p := by
  intro l
  induction l with
  | nil => cases hpa : p a <;> simp [List.orderedInsert, List.filter, hpa]
  | cons b l ih =>
    simp only [List.orderedInsert]
    by_cases hr : r a b
    · rw [if_pos hr]
      cases hpa : p a <;> cases hpb : p b <;> simp [List.filter_cons, hpa, hpb]
    · rw [if_neg hr]
      cases hpb : p b
      · cases hpa : p a <;> simp [List.filter_cons, hpb, hpa, ih]
      · cases hpa : p a
        · simp [List.filter_cons, hpb, hpa, ih]
        · exact absurd (hp a b hpa hpb) hr

/-- Stability of insertion sort with respect to any key class: the
filtered subsequence of one key class is unchanged by sorting. -/
theorem filter_insertionSort {α : Type} (r : α → α → Prop) [DecidableRel r] (p : α → Bool)
    (hp : ∀ a b, p a = true → p b = true → r a b) :
    ∀ l, (List.insertionSort r l).filter p = l.filter p := by
  intro l
  induction l with
  | nil => rfl
  | cons a l ih =>
    simp only [List.insertionSort, filter_orderedInsert r p hp a, ih, List.filter_cons]

/-! ## Lemmas: date strings against the Unknown sentinel -/

/-- Any YYYY-MM-DD shaped string compares strictly below the Unknown
sentinel in the Python string order: its first character is a digit,
whose code point sits below the letter U. -/
theorem pyStrLt_of_isYMDShape (s : String) (h : isYMDShape s = true) :
    pyStrLt s "Unknown" = true := by
  unfold isYMDShape at h
  rcases hd : s.data with _ | ⟨y1, rest⟩
  · rw [hd] at h; cases h
  · rw [hd] at h
    rcases rest with _ | ⟨y2, rest⟩; · cases h
    rcases rest with _ | ⟨y3, rest⟩; · cases h
    rcases rest with _ | ⟨y4, rest⟩; · cases h
    rcases rest with _ | ⟨h1, rest⟩; · cases h
    rcases rest with _ | ⟨m1, rest⟩; · cases h
    rcases rest with _ | ⟨m2, rest⟩; · cases h
    rcases rest with _ | ⟨h2, rest⟩; · cases h
    rcases rest with _ | ⟨d1, rest⟩; · cases h
    rcases rest with _ | ⟨d2, rest⟩; · cases h
    rcases rest with _ | ⟨x, rest⟩
    · simp only [Bool.and_eq_true, isDigitCh, decide_eq_true_eq] at h
      have hy : y1.toNat ≤ 57 := h.1.1.1.1.1.1.1.1.1.2
      unfold pyStrLt
      rw [hd]
      show pyStrLtChars (y1 :: _) ('U' :: _) = true
      unfold pyStrLtChars
      have hy85 : y1.toNat < 85 := by omega
      simp [hy85]
    · cases h

/-! ## Lemmas: aggregation -/

/-- The kept results are exactly the successful ones; dropping None
removes one entry per failed item. -/
theorem length_collectResults (raw : List (Option AuditRow)) :
    (collectResults raw).length = (raw.filter Option.isSome).length := by
  unfold collectResults
  induction raw with
  | nil => rfl
  | cons o rest ih =>
    cases o <;> simp [List.filterMap_cons, List.filter_cons, ih]

/-- Every kept result is the value of a successful entry of the raw
outcome list. -/
theorem mem_collectResults (raw : List (Option AuditRow)) (r : AuditRow) :
    r ∈ collectResults raw ↔ some r ∈ raw := by
  unfold collectResults
  simp [List.mem_filterMap]

/-! ## Lemmas: the extractor -/

/-- Blocks that contribute no graph are all skipped. -/
theorem extract_jsonld_all_opaque :
    ∀ bs, (∀ b ∈ bs, graphOf b = none) → extract_jsonld bs = (none, none) := by
  intro bs
  induction bs with
  | nil => intro _; rfl
  | cons b rest ih =>
    intro h
    have hb := h b (by simp)
    simp only [extract_jsonld, hb]
    exact ih (fun x hx => h x (by simp [hx]))

/-- A malformed block is skipped without aborting extraction. -/
theorem extract_jsonld_skips_malformed (bs : List LdBlock) :
    extract_jsonld (LdBlock.malformed :: bs) = extract_jsonld bs := rfl

/-- When no structured data yields an article, processing always
produces a row: the date string is empty, so the date parse that could
fail is never attempted. -/
theorem processDoc_total_of_no_article (cutoffYear : Nat) (url : String) (doc : Doc)
    (h : (extract_jsonld doc.blocks).1 = none) :
    ∃ row, processDoc cutoffYear url doc = some row := by
  refine ⟨⟨url, titleOf none doc.titleTag, "Unknown", "Unknown",
          articleTypeOf doc.container (extract_jsonld doc.blocks).2,
          "REVIEW", "Could not determine publish date"⟩, ?_⟩
  simp only [processDoc, h]
  rfl

/-! ## Lemmas: the scrape_article retry loop -/

/-- Over consecutive attempt indices, k transient failures followed by a
200 response make the loop return the processed body of the successful
attempt, after exactly k + 1 attempts. -/
theorem scrapeLoop_recovers (cutoffYear : Nat) (url : String)
    (transport : Nat → FetchOutcome) (doc : Doc) :
    ∀ k start len, (∀ i, i < k → transport (start + i) = .transient) →
      transport (start + k) = .ok 200 doc → k < len →
      scrapeLoop cutoffYear url transport (List.range' start len) =
        (processDoc cutoffYear url doc, start + k + 1) := by
  intro k
  induction k with
  | zero =>
    intro start len _ hok hlt
    rcases len with _ | n
    · omega
    · rw [List.range'_succ]
      simp only [scrapeLoop]
      rw [Nat.add_zero] at hok
      rw [hok]
      simp
  | succ k ih =>
    intro start len htr hok hlt
    rcases len with _ | n
    · omega
    · rw [List.range'_succ]
      simp only [scrapeLoop]
      have h0 : transport start = .transient := by
        have := htr 0 (by omega)
        simpa using this
      rw [h0]
      rcases n with _ | m
      · omega
      · have hne : (List.range' (start + 1) (m + 1)).isEmpty = false := by
          rw [List.range'_succ]
          rfl
        rw [hne]
        simp only [Bool.false_eq_true, if_false]
        have := ih (start + 1) (m + 1)
          (fun i hi => by
            have := htr (i + 1) (by omega)
            simpa [Nat.add_assoc, Nat.add_comm 1 i] using this)
          (by
            have : start + 1 + k = start + (k + 1) := by omega
            rw [this]; exact hok)
          (by omega)
        rw [this]
        congr 1
        omega

/-- The attempt count of the loop never exceeds a bound dominating every
attempt index plus one. -/
theorem scrapeLoop_attempts_le (cutoffYear : Nat) (url : String)
    (transport : Nat → FetchOutcome) (B : Nat) :
    ∀ l, (∀ a ∈ l, a + 1 ≤ B) → (scrapeLoop cutoffYear url transport l).2 ≤ B := by
  intro l
  induction l with
  | nil => intro _; exact Nat.zero_le B
  | cons a rest ih =>
    intro h
    have ha := h a (by simp)
    simp only [scrapeLoop]
    cases transport a with
    | ok status doc =>
      by_cases hs : status = 200 <;> simp [hs, ha]
    | otherError => simpa using ha
    | transient =>
      cases hre : rest.isEmpty
      · simp only [Bool.false_eq_true, if_false]
        exact ih (fun x hx => h x (by simp [hx]))
      · simpa [hre] using ha

/-! ## Lemmas: the fetch_xml retry loop -/

/-- One controlled unfolding step of the fetch loop on a nonempty
attempt list. -/
theorem fetchXmlLoop_cons {α : Type} (t : Nat → Except String α) (b a : Nat)
    (rest : List Nat) :
    fetchXmlLoop t b (a :: rest) =
      match t a with
      | .ok v => (.ok v, [])
      | .error e =>
          if rest.isEmpty then (.error e, [])
          else ((fetchXmlLoop t b rest).1, b * (a + 1) :: (fetchXmlLoop t b rest).2) := rfl

/-- When every attempt over consecutive indices fails, the loop
re-raises the error of the last attempt after sleeping the linear
backoff of every earlier attempt. -/
theorem fetchXmlLoop_exhausts {α : Type} (transport : Nat → Except String α)
    (e : Nat → String) (backoff : Nat) :
    ∀ n start, (∀ i, i ≤ n → transport (start + i) = .error (e (start + i))) →
      fetchXmlLoop transport backoff (List.range' start (n + 1)) =
        (.error (e (start + n)),
         (List.range' start n).map (fun a => backoff * (a + 1))) := by
  intro n
  induction n with
  | zero =>
    intro start h
    rw [List.range'_succ, fetchXmlLoop_cons]
    have h0 := h 0 (by omega)
    rw [Nat.add_zero] at h0
    rw [h0]
    simp
  | succ n ih =>
    intro start h
    rw [List.range'_succ, fetchXmlLoop_cons]
    have h0 := h 0 (by omega)
    rw [Nat.add_zero] at h0
    have hne : (List.range' (start + 1) (n + 1)).isEmpty = false := by
      rw [List.range'_succ]
      rfl
    rw [h0]
    simp only [hne, Bool.false_eq_true, if_false]
    have hrec := ih (start + 1)
      (fun i hi => by
        have := h (i + 1) (by omega)
        simpa [Nat.add_assoc, Nat.add_comm 1 i] using this)
    rw [hrec]
    rw [List.range'_succ, List.map_cons]
    have he : start + 1 + n = start + (n + 1) := by omega
    rw [he]

/-- When k failures precede a success inside the attempt budget, the
loop returns the successful value. -/
theorem fetchXmlLoop_recovers {α : Type} (transport : Nat → Except String α)
    (backoff : Nat) (v : α) :
    ∀ k start len, (∀ i, i < k → ∃ msg, transport (start + i) = .error msg) →
      transport (start + k) = .ok v → k < len →
      (fetchXmlLoop transport backoff (List.range' start len)).1 = .ok v := by
  intro k
  induction k with
  | zero =>
    intro start len _ hok hlt
    rcases len with _ | n
    · omega
    · rw [List.range'_succ]
      simp only [fetchXmlLoop]
      rw [Nat.add_zero] at hok
      rw [hok]
  | succ k ih =>
    intro start len hfail hok hlt
    rcases len with _ | n
    · omega
    · rw [List.range'_succ]
      simp only [fetchXmlLoop]
      obtain ⟨msg, hmsg⟩ := hfail 0 (by omega)
      rw [Nat.add_zero] at hmsg
      rw [hmsg]
      rcases n with _ | m
      · omega
      · have hne : (List.range' (start + 1) (m + 1)).isEmpty = false := by
          rw [List.range'_succ]
          rfl
        rw [hne]
        simp only [Bool.false_eq_true, if_false]
        exact ih (start + 1) (m + 1)
          (fun i hi => by
            obtain ⟨msg', hm⟩ := hfail (i + 1) (by omega)
            exact ⟨msg', by simpa [Nat.add_assoc, Nat.add_comm 1 i] using hm⟩)
          (by
            have : start + 1 + k = start + (k + 1) := by omega
            rw [this]; exact hok)
          (by omega)

/-! ## Lemmas: the crawl frontier -/

/-- Batch building on an empty queue stops. -/
theorem buildBatch_nil (visited batch : List String) :
    buildBatch visited batch [] = (visited, batch, []) := by
  rw [buildBatch]
  simp

/-- Batch building stops at ten URLs, leaving the queue. -/
theorem buildBatch_full (visited batch toVisit : List String) (htv : toVisit ≠ [])
    (hlen : batch.length ≥ 10) :
    buildBatch visited batch toVisit = (visited, batch, toVisit) := by
  rw [buildBatch]
  rw [dif_neg htv, if_pos hlen]

/-- A visited or skip-filtered URL is popped and dropped. -/
theorem buildBatch_skip (visited batch toVisit : List String) (htv : toVisit ≠ [])
    (hlen : ¬ batch.length ≥ 10)
    (hc : toVisit.getLast htv ∈ visited ∨ should_skip (toVisit.getLast htv) = true) :
    buildBatch visited batch toVisit = buildBatch visited batch toVisit.dropLast := by
  rw [buildBatch]
  rw [dif_neg htv, if_neg hlen]
  simp only [hc, if_true]

/-- A fresh unskipped URL is popped, marked visited and batched. -/
theorem buildBatch_take (visited batch toVisit : List String) (htv : toVisit ≠ [])
    (hlen : ¬ batch.length ≥ 10)
    (hc : ¬ (toVisit.getLast htv ∈ visited ∨ should_skip (toVisit.getLast htv) = true)) :
    buildBatch visited batch toVisit =
      buildBatch (toVisit.getLast htv :: visited) (batch ++ [toVisit.getLast htv])
        toVisit.dropLast := by
  rw [buildBatch]
  rw [dif_neg htv, if_neg hlen]
  simp only [hc, if_false]

/-- Invariant of the batch-building loop: the visited set only grows,
every batched URL was either already batched or freshly unvisited, and
when the incoming state is consistent (visited set without duplicates,
batch without duplicates and inside the visited set) the outgoing
visited set and batch are duplicate-free with the batch inside the
visited set. -/
theorem buildBatch_inv (visited batch toVisit : List String) :
    (∀ x, x ∈ visited → x ∈ (buildBatch visited batch toVisit).1) ∧
    (∀ x, x ∈ (buildBatch visited batch toVisit).2.1 → x ∈ batch ∨ x ∉ visited) ∧
    (visited.Nodup → batch.Nodup → (∀ x ∈ batch, x ∈ visited) →
      (buildBatch visited batch toVisit).1.Nodup ∧
      (buildBatch visited batch toVisit).2.1.Nodup ∧
      (∀ x ∈ (buildBatch visited batch toVisit).2.1,
        x ∈ (buildBatch visited batch toVisit).1)) := by
  induction visited, batch, toVisit using buildBatch.induct with
  | case1 v b =>
    rw [buildBatch_nil]
    exact ⟨fun x hx => hx, fun x hx => Or.inl hx,
           fun hv hb hsub => ⟨hv, hb, fun x hx => hsub x hx⟩⟩
  | case2 v b tv htv hlen =>
    rw [buildBatch_full v b tv htv hlen]
    exact ⟨fun x hx => hx, fun x hx => Or.inl hx,
           fun hv hb hsub => ⟨hv, hb, fun x hx => hsub x hx⟩⟩
  | case3 v b tv htv hlen url rest hc ih =>
    rw [buildBatch_skip v b tv htv hlen hc]
    exact ih
  | case4 v b tv htv hlen url rest hc ih =>
    rw [buildBatch_take v b tv htv hlen hc]
    have hnv : tv.getLast htv ∉ v := fun hmem => hc (Or.inl hmem)
    obtain ⟨ih1, ih2, ih3⟩ := ih
    refine ⟨?_, ?_, ?_⟩
    · intro x hx
      exact ih1 x (List.mem_cons_of_mem _ hx)
    · intro x hx
      rcases ih2 x hx with hxb | hxnv
      · rcases List.mem_append.mp hxb with hxb' | hxu
        · exact Or.inl hxb'
        · right
          rw [List.mem_singleton.mp hxu]
          exact hnv
      · right
        intro hxv
        exact hxnv (List.mem_cons_of_mem _ hxv)
    · intro hv hb hsub
      apply ih3
      · exact List.nodup_cons.mpr ⟨hnv, hv⟩
      · rw [List.nodup_append]
        refine ⟨hb, List.nodup_singleton _, ?_⟩
        intro x hxb hxu
        have hx : x ∈ v := hsub x hxb
        rw [List.mem_singleton.mp hxu] at hx
        exact hnv hx
      · intro x hx
        rcases List.mem_append.mp hx with hxb | hxu
        · exact List.mem_cons_of_mem _ (hsub x hxb)
        · rw [List.mem_singleton.mp hxu]
          exact List.mem_cons_self _ _

/-- Invariant of the crawl loop: starting from a consistent state (no
duplicate visited-set insertions, no URL fetched twice, every fetched
URL in the visited set), any number of iterations preserves all three. -/
theorem crawlRun_inv (linksOf : String → List String) :
    ∀ fuel s, s.visited.Nodup → s.fetched.Nodup → (∀ x ∈ s.fetched, x ∈ s.visited) →
      (crawlRun linksOf fuel s).visited.Nodup ∧
      (crawlRun linksOf fuel s).fetched.Nodup ∧
      (∀ x ∈ (crawlRun linksOf fuel s).fetched, x ∈ (crawlRun linksOf fuel s).visited) := by
  intro fuel
  induction fuel with
  | zero =>
    intro s h1 h2 h3
    exact ⟨h1, h2, h3⟩
  | succ fuel ih =>
    intro s h1 h2 h3
    rw [crawlRun]
    by_cases htv : s.toVisit = []
    · simp only [htv, if_true]
      exact ⟨h1, h2, h3⟩
    · simp only [if_neg htv]
      obtain ⟨bb1, bb2, bb3⟩ := buildBatch_inv s.visited [] s.toVisit
      obtain ⟨hv', hb', hbv'⟩ := bb3 h1 List.nodup_nil (by intro x hx; cases hx)
      by_cases hbe : (buildBatch s.visited [] s.toVisit).2.1 = []
      · simp only [hbe, if_true]
        exact ⟨hv', h2, fun x hx => bb1 x (h3 x hx)⟩
      · simp only [if_neg hbe]
        apply ih
        · exact hv'
        · rw [List.nodup_append]
          refine ⟨h2, hb', ?_⟩
          intro x hxf hxb
          rcases bb2 x hxb with hx0 | hxnv
          · cases hx0
          · exact hxnv (h3 x hxf)
        · intro x hx
          rcases List.mem_append.mp hx with hxf | hxb
          · exact bb1 x (h3 x hxf)
          · exact hbv' x hxb

/-! ## Lemmas: substring helpers for reason strings -/

/-- Substring search survives prefix extension. -/
theorem hasSub_append_left (pat t : List Char) (h : hasSub pat t = true) :
    ∀ pre, hasSub pat (pre ++ t) = true := by
  intro pre
  induction pre with
  | nil => simpa using h
  | cons c cs ih =>
    show (startsWithChars pat (c :: (cs ++ t)) || hasSub pat (cs ++ t)) = true
    rw [ih, Bool.or_true]

/-- Right-associated form of the embedded-pattern lemma. -/
theorem hasSub_middle_assoc (pat pre suf : List Char) :
    hasSub pat (pre ++ (pat ++ suf)) = true := by
  have := hasSub_append_middle pat pre suf
  rwa [List.append_assoc] at this

/-- A month-space-year block is found inside the reason string built
around it. -/
theorem containsSub_mid (pre m sp y suf : String) :
    containsSub (pre ++ m ++ sp ++ y ++ suf) (m ++ sp ++ y) = true := by
  unfold containsSub
  simp only [String.data_append, List.append_assoc]
  have := hasSub_middle_assoc (m.data ++ (sp.data ++ y.data)) pre.data suf.data
  simpa [List.append_assoc] using this

/-- End-anchored form of the embedded-pattern lemma. -/
theorem containsSub_mid_end (pre m sp y : String) :
    containsSub (pre ++ m ++ sp ++ y) (m ++ sp ++ y) = true := by
  unfold containsSub
  simp only [String.data_append, List.append_assoc]
  have := hasSub_middle_assoc (m.data ++ (sp.data ++ y.data)) pre.data []
  simpa [List.append_assoc] using this

/-- A pattern inside the final literal of an appended string is found in
the whole. -/
theorem containsSub_append_right (s t pat : String) (h : containsSub t pat = true) :
    containsSub (s ++ t) pat = true := by
  unfold containsSub at h ⊢
  rw [String.data_append]
  exact hasSub_append_left pat.data t.data h s.data

/-! ## Claim C2 -/

/-- C2 (confirmed): the date-based classifier gives DELETE_CANDIDATE
exactly when the publish year is strictly below the cutoff (current
year minus three), with a reason naming the month and year and flagging
staleness; KEEP otherwise, still naming the month and year; and REVIEW
with the literal reason when no publish date is determinable.  The
concrete example of the claim (publish date 2021-05-12, current year
2025, cutoff 2022) is evaluated through the full page-processing
pipeline: status DELETE_CANDIDATE with a reason containing May 2021 and
the staleness flag. -/
theorem claim_C2_date_status :
    (∀ y m d cutoff, y < cutoff →
      dateStatus (some ⟨y, m, d⟩) cutoff =
        ("DELETE_CANDIDATE",
         "Published " ++ monthAbbrev m ++ " " ++ Nat.repr y ++ "  — over 3 years old") ∧
      containsSub (dateStatus (some ⟨y, m, d⟩) cutoff).2
        (monthAbbrev m ++ " " ++ Nat.repr y) = true ∧
      containsSub (dateStatus (some ⟨y, m, d⟩) cutoff).2 "over 3 years old" = true) ∧
    (∀ y m d cutoff, ¬ y < cutoff →
      (dateStatus (some ⟨y, m, d⟩) cutoff).1 = "KEEP" ∧
      containsSub (dateStatus (some ⟨y, m, d⟩) cutoff).2
        (monthAbbrev m ++ " " ++ Nat.repr y) = true) ∧
    (∀ cutoff, dateStatus none cutoff = ("REVIEW", "Could not determine publish date")) ∧
    (processDoc (2025 - 3) "https://thepaymentsassociation.org/article/x"
        ⟨[LdBlock.graphDict [⟨some "2021-05-12", none, .absent, none, []⟩]], none, none⟩ =
      some ⟨"https://thepaymentsassociation.org/article/x", "Unknown", "Unknown", "2021-05-12",
            "Unknown", "DELETE_CANDIDATE", "Published May 2021  — over 3 years old"⟩ ∧
      containsSub "Published May 2021  — over 3 years old" "May 2021" = true ∧
      containsSub "Published May 2021  — over 3 years old" "over 3 years old" = true) := by
  refine ⟨?_, ?_, ?_, ?_⟩
  · intro y m d cutoff h
    have hds : dateStatus (some ⟨y, m, d⟩) cutoff =
        ("DELETE_CANDIDATE",
         "Published " ++ monthAbbrev m ++ " " ++ Nat.repr y ++ "  — over 3 years old") := by
      simp [dateStatus, h]
    refine ⟨hds, ?_, ?_⟩
    · rw [hds]
      exact containsSub_mid "Published " (monthAbbrev m) " " (Nat.repr y)
        "  — over 3 years old"
    · rw [hds]
      exact containsSub_append_right
        ("Published " ++ monthAbbrev m ++ " " ++ Nat.repr y)
        "  — over 3 years old" "over 3 years old" (by decide)
  · intro y m d cutoff h
    have hds : dateStatus (some ⟨y, m, d⟩) cutoff =
        ("KEEP", "Published " ++ monthAbbrev m ++ " " ++ Nat.repr y) := by
      simp [dateStatus, h]
    refine ⟨by rw [hds], ?_⟩
    rw [hds]
    exact containsSub_mid_end "Published " (monthAbbrev m) " " (Nat.repr y)
  · intro cutoff
    rfl
  · exact ⟨by decide, by decide, by decide⟩

/-- C2 witness: the general statement applied at the concrete example
year 2021 against cutoff 2022. -/
theorem claim_C2_date_status_witness :
    dateStatus (some ⟨2021, 5, 12⟩) 2022 =
      ("DELETE_CANDIDATE", "Published May 2021  — over 3 years old") := by
  have h := (claim_C2_date_status.1 2021 5 12 2022 (by omega)).1
  simpa using h

/-! ## Claim C7 -/

/-- C7 (confirmed): the aggregators sort deterministically.  In
date-audit mode the output is sorted ascending by the published-date
key and is a permutation of the input; in path-audit mode the output is
sorted by the status priority DELETE_CANDIDATE, DUPLICATE, REVIEW,
KEEP, is a permutation of the input, and is stable (each status class
keeps its input order).  On rows with statuses KEEP, DELETE_CANDIDATE,
REVIEW, DUPLICATE the path sort yields DELETE_CANDIDATE, DUPLICATE,
REVIEW, KEEP. -/
theorem claim_C7_aggregator_sort :
    (∀ rows : List AuditRow,
      List.Sorted (fun a b => pyStrLe a.published_date b.published_date = true)
        (dateSort rows) ∧ (dateSort rows).Perm rows) ∧
    (∀ rows : List PathRow,
      List.Sorted (fun a b => statusRank a.status ≤ statusRank b.status)
        (pathSort rows) ∧ (pathSort rows).Perm rows) ∧
    (∀ (rows : List PathRow) (s : String),
      (pathSort rows).filter (fun r => r.status == s) =
        rows.filter (fun r => r.status == s)) ∧
    ((pathSort [⟨"u1", "KEEP", "r"⟩, ⟨"u2", "DELETE_CANDIDATE", "r"⟩,
                ⟨"u3", "REVIEW", "r"⟩, ⟨"u4", "DUPLICATE", "r"⟩]).map PathRow.status =
      ["DELETE_CANDIDATE", "DUPLICATE", "REVIEW", "KEEP"]) := by
  refine ⟨?_, ?_, ?_, by decide⟩
  · intro rows
    exact ⟨List.sorted_insertionSort _ rows, List.perm_insertionSort _ rows⟩
  · intro rows
    exact ⟨List.sorted_insertionSort _ rows, List.perm_insertionSort _ rows⟩
  · intro rows s
    apply filter_insertionSort
    intro a b ha hb
    have ha' : a.status = s := by simpa using ha
    have hb' : b.status = s := by simpa using hb
    rw [ha', hb']

/-! ## Claim C10 -/

/-- C10 (confirmed): a row whose publish date could not be determined
carries the literal Unknown sentinel in its published_date field; any
YYYY-MM-DD date string compares strictly below Unknown in the
code-point string order used by the sort; the date sort is sorted under
that order; hence in the sorted output no Unknown-dated row ever
precedes a row carrying a YYYY-MM-DD date. -/
theorem claim_C10_unknown_sorts_last :
    (∀ cutoff url doc row, processDoc cutoff url doc = some row →
      ((extract_jsonld doc.blocks).1.bind (fun a => a.datePublished)).getD "" = "" →
      row.published_date = "Unknown") ∧
    (∀ s : String, isYMDShape s = true → pyStrLt s "Unknown" = true) ∧
    (∀ rows : List AuditRow,
      List.Sorted (fun a b => pyStrLe a.published_date b.published_date = true)
        (dateSort rows)) ∧
    (∀ (rows : List AuditRow) (i j : Fin (dateSort rows).length), i < j →
      ((dateSort rows).get i).published_date = "Unknown" →
      isYMDShape ((dateSort rows).get j).published_date = false) := by
  refine ⟨?_, pyStrLt_of_isYMDShape, ?_, ?_⟩
  · intro cutoff url doc row h1 h2
    simp only [processDoc] at h1
    rw [h2] at h1
    simp only [if_pos rfl] at h1
    rw [← Option.some.inj h1]
    rfl
  · intro rows
    exact List.sorted_insertionSort _ rows
  · intro rows i j hij hUnk
    cases hy : isYMDShape ((dateSort rows).get j).published_date
    · rfl
    · exfalso
      have hs : List.Sorted (fun a b => pyStrLe a.published_date b.published_date = true)
          (dateSort rows) := List.sorted_insertionSort _ rows
      have hrel := hs.rel_get_of_lt hij
      rw [hUnk] at hrel
      have hlt := pyStrLt_of_isYMDShape _ hy
      unfold pyStrLe at hrel
      rw [hlt] at hrel
      cases hrel

/-- C10 witness: the theorem applied at a concrete two-row list whose
first sorted entry is Unknown-dated, concluding the second is not a
date-shaped string. -/
theorem claim_C10_unknown_sorts_last_witness :
    isYMDShape ((dateSort [⟨"a", "t", "a", "Unknown", "ty", "s", "r"⟩,
                           ⟨"b", "t", "a", "Unknown", "ty", "s", "r"⟩]).get
      ⟨1, by decide⟩).published_date = false := by
  exact claim_C10_unknown_sorts_last.2.2.2
    [⟨"a", "t", "a", "Unknown", "ty", "s", "r"⟩, ⟨"b", "t", "a", "Unknown", "ty", "s", "r"⟩]
    ⟨0, by decide⟩ ⟨1, by decide⟩ (by decide) (by decide)

/-! ## Claim C3 -/

/-- The source classifier equals first-match-wins evaluation of the rule
list in the order the source checks: duplicates, gallery, event,
directory, filter categories, webinar, content, default KEEP. -/
theorem categorise_eq_rules (cutoff : Nat) (url : String) :
    categorise cutoff url =
      applyRules [ruleDup, ruleGallery cutoff, ruleEvent cutoff, ruleDirectory,
                  ruleFilterCat, ruleWebinar cutoff, ruleContent]
        (lowerStr (urlPath url)) := by
  set path := lowerStr (urlPath url) with hpath
  show categorise cutoff url = applyRules _ path
  unfold categorise
  rw [← hpath]
  simp only [applyRules, ruleDup, ruleGallery, ruleEvent, ruleDirectory, ruleFilterCat,
             ruleWebinar, ruleContent, duplicate_pairs, List.find?, beq_iff_eq]
  by_cases h1 : path = "/members/become-a-member"
  · simp [h1]
  · simp only [h1, if_false]
    by_cases h2 : path = "/members/purchase-membership"
    · simp [h2, h1]
    · simp only [h2, if_false]
      by_cases h3 : path = "/members/terms-and-conditions"
      · simp [h3, h1, h2]
      · have b1 : (path == "/members/become-a-member") = false :=
          beq_eq_false_iff_ne.mpr h1
        have b2 : (path == "/members/purchase-membership") = false :=
          beq_eq_false_iff_ne.mpr h2
        have b3 : (path == "/members/terms-and-conditions") = false :=
          beq_eq_false_iff_ne.mpr h3
        simp only [h3, if_false, h1, h2, b1, b2, b3]
        by_cases hg : containsSub path "/gallery/" = true
        · simp [hg]
        · simp only [hg, Bool.false_eq_true, if_false]
          by_cases he : containsSub path "/event/" = true
          · simp [he, hg]
          · simp only [he, Bool.false_eq_true, if_false]
            by_cases hd : containsSub path "/directory/" = true
            · simp [hd, hg, he]
            · simp only [hd, Bool.false_eq_true, if_false]
              by_cases hf : (containsSub path "/filter_categories/" ||
                  containsSub path "/directory_cat/") = true
              · simp [hf, hg, he, hd]
              · simp only [hf, Bool.false_eq_true, if_false]
                by_cases hw : containsSub path "/webinar/" = true
                · simp [hw, hg, he, hd, hf]
                · simp only [hw, Bool.false_eq_true, if_false]
                  by_cases hc : (containsSub path "/article/" ||
                      containsSub path "/whitepaper/") = true
                  · simp [hc, hg, he, hd, hf, hw]
                  · simp [hc, hg, he, hd, hf, hw]

/-- C3 counterexample: the claim lists the webinar rule alongside the
gallery rule, ahead of the event, directory and filter rules; evaluating
the rules in that listed order classifies the path /event/webinar/ as
KEEP (webinar page), but the source checks the event rule first and
returns REVIEW, so the listed priority order is not the order of the
code. -/
theorem claim_C3_counterexample :
    categoriseClaimOrder 2022 "https://thepaymentsassociation.org/event/webinar/" =
      ("KEEP", "Webinar page") ∧
    categorise 2022 "https://thepaymentsassociation.org/event/webinar/" =
      ("REVIEW", "Past or upcoming event — check if still relevant") ∧
    categoriseClaimOrder 2022 "https://thepaymentsassociation.org/event/webinar/" ≠
      categorise 2022 "https://thepaymentsassociation.org/event/webinar/" := by
  refine ⟨by decide, by decide, by decide⟩

/-- C3 (corrected): the path classifier evaluates its rules in a fixed
first-match-wins priority order with the exact-match duplicate check
first, but the webinar rule runs only after the event, directory and
filter-category rules (not grouped with the gallery rule as the claim
lists): the classifier equals first-match evaluation of the rule list
duplicates, gallery, event, directory, filter categories, webinar,
content, with unmatched paths KEEP as core site pages.  A path equal to
a duplicate-pair first element is classified DUPLICATE whatever else it
would match, and /event/fintech-2023 under cutoff 2022 is classified
REVIEW as a past-or-upcoming event. -/
theorem claim_C3_path_rules :
    (∀ cutoff url, categorise cutoff url =
      applyRules [ruleDup, ruleGallery cutoff, ruleEvent cutoff, ruleDirectory,
                  ruleFilterCat, ruleWebinar cutoff, ruleContent]
        (lowerStr (urlPath url))) ∧
    (∀ cutoff url, lowerStr (urlPath url) = "/members/become-a-member" →
      categorise cutoff url =
        ("DUPLICATE", "Possible duplicate of " ++ BASE_URL ++ "/become-a-member")) ∧
    (categorise 2022 "https://thepaymentsassociation.org/event/fintech-2023" =
      ("REVIEW", "Past or upcoming event — check if still relevant")) := by
  refine ⟨categorise_eq_rules, ?_, by decide⟩
  intro cutoff url h
  unfold categorise
  rw [h]
  rfl

/-- C3 witness: the amended duplicate-priority statement applied at the
duplicate member URL. -/
theorem claim_C3_path_rules_witness :
    categorise 2022 "https://thepaymentsassociation.org/members/become-a-member" =
      ("DUPLICATE", "Possible duplicate of " ++ BASE_URL ++ "/become-a-member") :=
  claim_C3_path_rules.2.1 2022 "https://thepaymentsassociation.org/members/become-a-member"
    (by decide)

/-! ## Claim C4 -/

/-- C4 (confirmed): when the transport fails with a retried transient
error (timeout or disconnect) on exactly the first k attempts, k < R,
and the attempt k fetch returns a 200 response, scrape_article returns
the processed result of that successful fetch after exactly k + 1
attempts, within the budget R; and over any transport whatsoever the
executor never makes more than R attempts (the run driver passes the
default R = 3). -/
theorem claim_C4_retry_recovers :
    (∀ cutoff url (transport : Nat → FetchOutcome) R k doc,
      (∀ i, i < k → transport i = .transient) → transport k = .ok 200 doc → k < R →
      scrape_article cutoff url transport R = (processDoc cutoff url doc, k + 1) ∧
      k + 1 ≤ R) ∧
    (∀ cutoff url (transport : Nat → FetchOutcome) R,
      (scrape_article cutoff url transport R).2 ≤ R) := by
  constructor
  · intro cutoff url transport R k doc htr hok hlt
    refine ⟨?_, by omega⟩
    unfold scrape_article
    rw [List.range_eq_range']
    have := scrapeLoop_recovers cutoff url transport doc k 0 R
      (fun i hi => by simpa using htr i hi) (by simpa using hok) hlt
    simpa using this
  · intro cutoff url transport R
    unfold scrape_article
    apply scrapeLoop_attempts_le
    intro a ha
    have := List.mem_range.mp ha
    omega

/-- C4 witness: one transient failure then a 200 response under the
default three retries returns the processed row after two attempts. -/
theorem claim_C4_retry_recovers_witness :
    scrape_article 2022 "u"
      (fun i => if i = 0 then .transient else .ok 200 ⟨[], none, none⟩) 3 =
      (processDoc 2022 "u" ⟨[], none, none⟩, 2) ∧ (2 : Nat) ≤ 3 := by
  have := claim_C4_retry_recovers.1 2022 "u"
    (fun i => if i = 0 then .transient else .ok 200 ⟨[], none, none⟩) 3 1 ⟨[], none, none⟩
    (fun i hi => by interval_cases i; rfl) (by rfl) (by omega)
  exact this

/-! ## Claim C9 -/

/-- C9 (confirmed): the serial sitemap fetch is the one path allowed to
abort the run, and before aborting it retries with linearly increasing
backoff: when every attempt fails, fetch_xml re-raises the error of the
last attempt after exactly R attempts with waits backoff x 1, ...,
backoff x (R - 1); when a failure streak ends in success within the
budget it returns the success; a sitemap-phase error aborts runAudit
with that very error; and whenever the sitemap phase succeeds the run
produces a report, whatever the per-item transports do — per-item fetch
failures never abort the run. -/
theorem claim_C9_sitemap_abort :
    (∀ (α : Type) (t : Nat → Except String α) (e : Nat → String) R b, 1 ≤ R →
      (∀ i, i < R → t i = .error (e i)) →
      fetch_xml t R b =
        (.error (e (R - 1)), (List.range (R - 1)).map (fun a => b * (a + 1)))) ∧
    (∀ (α : Type) (t : Nat → Except String α) (v : α) R b k,
      (∀ i, i < k → ∃ msg, t i = .error msg) → t k = .ok v → k < R →
      (fetch_xml t R b).1 = .ok v) ∧
    (∀ cutoff indexT subT perItem e,
      get_article_urls_from_sitemap indexT subT = .error e →
      runAudit cutoff indexT subT perItem = .error e) ∧
    (∀ cutoff indexT subT perItem urls,
      get_article_urls_from_sitemap indexT subT = .ok urls →
      ∃ rows, runAudit cutoff indexT subT perItem = .ok rows) := by
  refine ⟨?_, ?_, ?_, ?_⟩
  · intro α t e R b hR hfail
    unfold fetch_xml
    rw [List.range_eq_range']
    rcases R with _ | n
    · omega
    · have := fetchXmlLoop_exhausts t e b n 0
        (fun i hi => by
          have := hfail i (by omega)
          simpa using this)
      rw [List.range_eq_range']
      simpa using this
  · intro α t v R b k hfail hok hlt
    unfold fetch_xml
    rw [List.range_eq_range']
    exact fetchXmlLoop_recovers t b v k 0 R
      (fun i hi => by simpa using hfail i hi) (by simpa using hok) hlt
  · intro cutoff indexT subT perItem e h
    unfold runAudit
    rw [h]
  · intro cutoff indexT subT perItem urls h
    refine ⟨dateSort (collectResults
      (urls.map (fun u => (scrape_article cutoff u (perItem u) 3).1))), ?_⟩
    unfold runAudit
    rw [h]

/-- C9 witness: an always-failing sitemap transport aborts with the last
error after the default three attempts and waits 5 and 10 seconds. -/
theorem claim_C9_sitemap_abort_witness :
    fetch_xml (fun i => (.error (Nat.repr i) : Except String (List String))) 3 5 =
      (.error "2", [5, 10]) := by
  have := claim_C9_sitemap_abort.1 (List String)
    (fun i => .error (Nat.repr i)) (fun i => Nat.repr i) 3 5 (by omega)
    (fun i _ => rfl)
  simpa using this

/-! ## Claim C1 -/

/-- When every outcome is a success the aggregation keeps one row per
outcome. -/
theorem length_collectResults_of_all_some :
    ∀ raw : List (Option AuditRow), (∀ o ∈ raw, o.isSome = true) →
      (collectResults raw).length = raw.length := by
  intro raw
  induction raw with
  | nil => intro _; rfl
  | cons o rest ih =>
    intro h
    have ho := h o (by simp)
    cases o with
    | none => simp at ho
    | some r =>
      unfold collectResults at ih ⊢
      simp [List.filterMap_cons, ih (fun x hx => h x (by simp [hx]))]

/-- C1 counterexample: a run whose single article URL exhausts its
retries (every attempt transient) completes its fetching, yet the
output report is empty — the work item produces no AuditEntry at all,
rather than the REVIEW-like failure entry the claim requires. -/
theorem claim_C1_counterexample :
    runAudit 2022
      (fun _ => .ok ["https://thepaymentsassociation.org/post-sitemap1.xml"])
      (fun _ _ => .ok ["https://thepaymentsassociation.org/article/x/"])
      (fun _ _ => .transient) = .ok [] ∧
    (scrape_article 2022 "https://thepaymentsassociation.org/article/x"
      (fun _ => .transient) 3).1 = none := by
  exact ⟨by decide, by decide⟩

/-- C1 (corrected): a work item produces exactly one AuditEntry only
when its fetch and extraction succeed; items that fail — exhausted
retries, non-200 responses, or any other error — yield None and are
filtered out of the report entirely (logged to the console only), not
recorded as REVIEW-like entries.  The report length equals the number
of successful items, its rows are exactly the successful results, and
when every item succeeds each work item contributes exactly one
entry. -/
theorem claim_C1_one_entry_per_success :
    (∀ (cutoff : Nat) (urls : List String) (perItem : String → Nat → FetchOutcome),
      (collectResults (urls.map (fun u => (scrape_article cutoff u (perItem u) 3).1))).length =
        ((urls.map (fun u => (scrape_article cutoff u (perItem u) 3).1)).filter
          Option.isSome).length) ∧
    (∀ raw (r : AuditRow), r ∈ collectResults raw ↔ some r ∈ raw) ∧
    (∀ (cutoff : Nat) (urls : List String) (perItem : String → Nat → FetchOutcome),
      (∀ u ∈ urls, ((scrape_article cutoff u (perItem u) 3).1).isSome = true) →
      (collectResults (urls.map (fun u => (scrape_article cutoff u (perItem u) 3).1))).length =
        urls.length) := by
  refine ⟨?_, mem_collectResults, ?_⟩
  · intro cutoff urls perItem
    exact length_collectResults _
  · intro cutoff urls perItem h
    rw [length_collectResults_of_all_some _ ?_, List.length_map]
    intro o ho
    obtain ⟨u, hu, rfl⟩ := List.mem_map.mp ho
    exact h u hu

/-- C1 witness: a single always-successful item yields a one-row
report. -/
theorem claim_C1_one_entry_per_success_witness :
    (collectResults (["https://thepaymentsassociation.org/article/x"].map
      (fun u => (scrape_article 2022 u (fun _ => .ok 200 ⟨[], none, none⟩) 3).1))).length =
      (["https://thepaymentsassociation.org/article/x"] : List String).length :=
  claim_C1_one_entry_per_success.2.2 2022 ["https://thepaymentsassociation.org/article/x"]
    (fun _ _ => .ok 200 ⟨[], none, none⟩) (fun _ _ => rfl)

/-! ## Claim C5 -/

/-- C5 counterexample: a document with no parseable structured data (its
one script block is malformed JSON) but with a title tag yields a row
whose title is the tag content, not the Unknown sentinel — so not every
field of the record is Unknown as the claim states. -/
theorem claim_C5_counterexample :
    (processDoc 2022 "u" ⟨[LdBlock.malformed], some "Hi", none⟩).map AuditRow.title =
      some "Hi" ∧ ("Hi" : String) ≠ "Unknown" := by
  exact ⟨by decide, by decide⟩

/-- C5 (corrected): extraction is total and malformed structured-data
blocks are skipped, but only the fields with no further fallback are
forced to Unknown: on a document whose blocks all fail to parse and
which also has no title tag and no container markers, every extracted
field is the Unknown sentinel and the row is REVIEW; a malformed block
never changes the extraction of the remaining blocks; and whenever no
block yields an article, processing still returns a row (title and
article type falling back to the title tag and container markers when
those are present). -/
theorem claim_C5_unknown_fallback :
    (∀ cutoff url (doc : Doc), (∀ b ∈ doc.blocks, graphOf b = none) →
      doc.titleTag = none → doc.container = none →
      processDoc cutoff url doc =
        some ⟨url, "Unknown", "Unknown", "Unknown", "Unknown", "REVIEW",
              "Could not determine publish date"⟩) ∧
    (∀ bs, extract_jsonld (LdBlock.malformed :: bs) = extract_jsonld bs) ∧
    (∀ cutoff url (doc : Doc), (extract_jsonld doc.blocks).1 = none →
      ∃ row, processDoc cutoff url doc = some row) := by
  refine ⟨?_, extract_jsonld_skips_malformed, processDoc_total_of_no_article⟩
  intro cutoff url doc hb ht hc
  have hx : extract_jsonld doc.blocks = (none, none) := extract_jsonld_all_opaque _ hb
  simp only [processDoc, hx, ht, hc]
  rfl

/-- C5 witness: the amended statement applied at the all-empty document
with one malformed block. -/
theorem claim_C5_unknown_fallback_witness :
    processDoc 2022 "u" ⟨[LdBlock.malformed], none, none⟩ =
      some ⟨"u", "Unknown", "Unknown", "Unknown", "Unknown", "REVIEW",
            "Could not determine publish date"⟩ :=
  claim_C5_unknown_fallback.1 2022 "u" ⟨[LdBlock.malformed], none, none⟩
    (by intro b hb; simp at hb; rw [hb]; rfl) rfl rfl

/-! ## Claim C6 -/

/-- The article-type computation of the source equals the
sentinel-threaded evaluation of the three spec strategies in order. -/
theorem articleTypeOf_eq_sentinelChain (container : Option ContainerSignals)
    (bc : Option String) :
    articleTypeOf container bc =
      sentinelChain [strat1 container, strat2 bc, strat3 container] := by
  rcases container with _ | ⟨ft, cat⟩
  · rcases bc with _ | c
    · rfl
    · by_cases hc : c = "" <;>
        simp [articleTypeOf, sentinelChain, strat1, strat2, strat3, hc]
  · rcases ft with _ | raw
    · rcases bc with _ | c
      · rcases cat with _ | cs <;>
          simp [articleTypeOf, sentinelChain, strat1, strat2, strat3]
      · rcases cat with _ | cs <;> by_cases hc : c = "" <;>
          simp [articleTypeOf, sentinelChain, strat1, strat2, strat3, hc]
    · rcases bc with _ | c
      · rcases cat with _ | cs <;>
          simp [articleTypeOf, sentinelChain, strat1, strat2, strat3]
      · rcases cat with _ | cs <;> by_cases hc : c = "" <;>
          simp [articleTypeOf, sentinelChain, strat1, strat2, strat3, hc]

/-- C6 (confirmed): the type fallback chain is evaluated in fixed
priority order, each strategy consulted only while the previous ones
yielded nothing — where yielding nothing is leaving the type at the
Unknown sentinel, the explicit representation of absence in this
pipeline: the computation equals the sentinel-threaded chain of the
three strategies (filter_types slug through the override table else
humanized; breadcrumb category; category slug humanized).  The closed
conjuncts pin the behaviours the claim names: the override table maps a
known slug, an unknown slug is humanized by hyphen-splitting and
capitalizing, a container slug beats the breadcrumb, the breadcrumb is
used only when strategy 1 yields nothing, the category slug only when
both earlier strategies yield nothing, and the type stays Unknown when
all three yield nothing. -/
theorem claim_C6_type_fallback_chain :
    (∀ container bc, articleTypeOf container bc =
      sentinelChain [strat1 container, strat2 bc, strat3 container]) ∧
    articleTypeOf (some ⟨some "thought-leadership", none⟩) (some "News") =
      "Thought Leadership" ∧
    articleTypeOf (some ⟨some "industry-events", none⟩) (some "News") =
      "Industry Events" ∧
    articleTypeOf none (some "News") = "News" ∧
    articleTypeOf (some ⟨none, some "payments"⟩) none = "Payments" ∧
    articleTypeOf none none = "Unknown" := by
  exact ⟨articleTypeOf_eq_sentinelChain, by decide, by decide, by decide, by decide, rfl⟩

/-! ## Claim C8 -/

/-- Fold-level form of the discovery filter: everything the filter adds
passed the skip and depth checks and was not in the visited set. -/
theorem mem_discoverLinks_aux (visited : List String) (x : String) :
    ∀ (links acc : List String),
      x ∈ links.foldl
        (fun acc link =>
          if !should_skip link && is_top_level link then
            if !visited.contains link then acc ++ [link] else acc
          else acc) acc →
      x ∈ acc ∨ (x ∉ visited ∧ should_skip x = false ∧ is_top_level x = true) := by
  intro links
  induction links with
  | nil => intro acc h; exact Or.inl h
  | cons l rest ih =>
    intro acc h
    rw [List.foldl_cons] at h
    rcases ih _ h with hacc | hgood
    · by_cases h1 : (!should_skip l && is_top_level l) = true
      · rw [if_pos h1] at hacc
        by_cases h2 : (!visited.contains l) = true
        · rw [if_pos h2] at hacc
          rcases List.mem_append.mp hacc with hx | hx
          · exact Or.inl hx
          · right
            rw [List.mem_singleton.mp hx]
            have hm : l ∉ visited := by
              simpa using h2
            have hs : should_skip l = false ∧ is_top_level l = true := by
              simpa [Bool.and_eq_true] using h1
            exact ⟨hm, hs.1, hs.2⟩
        · rw [if_neg h2] at hacc
          exact Or.inl hacc
      · rw [if_neg h1] at hacc
        exact Or.inl hacc
    · exact Or.inr hgood

/-- C8 counterexample: enqueuing is not idempotent on the pending list.
A page whose links mention the same fresh URL twice passes the
discovery filter twice — the filter checks candidates only against the
visited set, never against the list being built — so the URL is
appended to the pending to_visit list twice. -/
theorem claim_C8_counterexample :
    (discoverLinks [] ["https://thepaymentsassociation.org/about",
                       "https://thepaymentsassociation.org/about"]).count
      "https://thepaymentsassociation.org/about" = 2 := by
  decide

/-- C8 (corrected): the pending list can receive the same URL twice,
but each URL is still fetched at most once.  Over any crawl (any link
oracle, any number of loop iterations from the initial state), the
visited set — the deduplicating set consulted at discovery and at
dequeue — receives each URL at most once, no URL is ever handed to the
fetcher twice, every fetched URL sits in the visited set, and the
discovery filter only enqueues URLs that are unvisited, unskipped and
top-level. -/
theorem claim_C8_fetch_at_most_once :
    (∀ (linksOf : String → List String) (fuel : Nat),
      (crawlRun linksOf fuel crawlInit).visited.Nodup ∧
      (crawlRun linksOf fuel crawlInit).fetched.Nodup ∧
      (∀ x ∈ (crawlRun linksOf fuel crawlInit).fetched,
        x ∈ (crawlRun linksOf fuel crawlInit).visited)) ∧
    (∀ visited links x, x ∈ discoverLinks visited links →
      x ∉ visited ∧ should_skip x = false ∧ is_top_level x = true) := by
  constructor
  · intro linksOf fuel
    exact crawlRun_inv linksOf fuel crawlInit List.nodup_nil List.nodup_nil
      (by intro x hx; cases hx)
  · intro visited links x h
    unfold discoverLinks at h
    rcases mem_discoverLinks_aux visited x links [] h with h0 | hgood
    · cases h0
    · exact hgood

/-- C8 witness: the discovery-filter statement applied at a concrete
fresh top-level URL. -/
theorem claim_C8_fetch_at_most_once_witness :
    ("https://thepaymentsassociation.org/about" : String) ∉ ([] : List String) ∧
    should_skip "https://thepaymentsassociation.org/about" = false ∧
    is_top_level "https://thepaymentsassociation.org/about" = true :=
  claim_C8_fetch_at_most_once.2 [] ["https://thepaymentsassociation.org/about"]
    "https://thepaymentsassociation.org/about" (by decide)
